import Mathlib

/-!
Shallow embedding of the `websocket` package of CUknot/network_backend
(hub registry, client read loop, message/invite handlers) together with
theorems checking the natural-language specification against it.

Conventions:
* Go `uint` values (client pointers are numbered, user ids, room ids) are `Nat`.
* The hub's maps (`clients map[*Client]bool`, `rooms map[uint]map[*Client]bool`)
  are association lists of client numbers; map insertion/deletion is modelled
  by duplicate-free list insertion/removal.
* Buffered channels are modelled by their occupancy and capacity (`Chan`);
  a `select`/`default` send is `Chan.trySend`, a plain blocking send is
  `Chan.blockingSend`.
* Database calls are modelled against an explicit `DB` value; every attempted
  durable write is recorded as a `DBEffect`, and injected success flags model
  gorm call outcomes.
-/

namespace NetworkBackend

/-- Association-list lookup for the `rooms map[uint]map[*Client]bool` index:
`h.rooms[roomID]` with its `ok` flag (`none` = key absent). -/
def lookupRoom (roomID : Nat) : List (Nat × List Nat) → Option (List Nat)
  | [] => none
  | p :: rest => if p.1 = roomID then some p.2 else lookupRoom roomID rest

/-- Replace the value stored at `roomID` (first occurrence), as assignment into
the `rooms` map does. -/
def updateVal (roomID : Nat) (v : List Nat) : List (Nat × List Nat) → List (Nat × List Nat)
  | [] => []
  | p :: rest => if p.1 = roomID then (roomID, v) :: rest else p :: updateVal roomID v rest

/-- Go `delete(h.rooms, roomID)`. -/
def eraseRoom (roomID : Nat) : List (Nat × List Nat) → List (Nat × List Nat)
  | [] => []
  | p :: rest => if p.1 = roomID then rest else p :: eraseRoom roomID rest

/-- Map-style insertion of a client into a member set:
`rooms[roomID][client] = true` adds the key at most once. -/
def insertClient (c : Nat) (l : List Nat) : List Nat :=
  if c ∈ l then l else l ++ [c]

/-- A buffered Go channel, abstracted to its occupancy and capacity
(`make(chan []byte, 256)` in `HandleConnection` gives `cap = 256`). -/
structure Chan where
  pending : Nat
  cap : Nat
deriving DecidableEq, Repr

/-- A `select { case ch <- m: ...; default: ... }` send: succeeds exactly when
the buffer has room, never blocks. -/
def Chan.trySend (q : Chan) : Option Chan :=
  if q.pending < q.cap then some ⟨q.pending + 1, q.cap⟩ else none

/-- Outcome of a plain (unguarded) channel send `ch <- m`. -/
inductive SendAttempt
  | enqueued (q : Chan)
  | blocked
deriving DecidableEq, Repr

/-- A plain `ch <- m` send: enqueues when the buffer has room, otherwise the
sending goroutine blocks. -/
def Chan.blockingSend (q : Chan) : SendAttempt :=
  if q.pending < q.cap then .enqueued ⟨q.pending + 1, q.cap⟩ else .blocked

/-- The channel send performed by `sendErrorToClient` (part_007):
`client.send <- errorBytes`, a plain blocking send on the bounded queue.
The same plain send is used by `notifyUserOfInvite`, `notifyInviterOfRejection`
and the confirmation helpers. -/
def sendErrorDelivery (q : Chan) : SendAttempt := q.blockingSend

/-- The hub registry state: the live-connection set `clients` and the
room index `rooms` (room id → member set). -/
structure Hub where
  clients : List Nat
  rooms : List (Nat × List Nat)
deriving DecidableEq, Repr

/-- Go `Hub.joinRoom` (part_006): create the member map on first join, then set
the client's key. -/
def Hub.joinRoom (h : Hub) (c roomID : Nat) : Hub :=
  match lookupRoom roomID h.rooms with
  | none => { h with rooms := h.rooms ++ [(roomID, [c])] }
  | some members => { h with rooms := updateVal roomID (insertClient c members) h.rooms }

/-- Go `Hub.leaveRoom` (part_006): if the room exists, delete the client from its
member map and delete the room entry when the member map became empty. -/
def Hub.leaveRoom (h : Hub) (c roomID : Nat) : Hub :=
  match lookupRoom roomID h.rooms with
  | none => h
  | some members =>
    if (members.filter (fun x => x != c)).isEmpty then
      { h with rooms := eraseRoom roomID h.rooms }
    else { h with rooms := updateVal roomID (members.filter (fun x => x != c)) h.rooms }

/-- The unregister branch of `Hub.Run` (part_006), restricted to the room
index: rooms containing the client lose it (the entry is deleted when its
member set became empty); rooms not containing the client are untouched. -/
def removeFromRooms (c : Nat) : List (Nat × List Nat) → List (Nat × List Nat)
  | [] => []
  | (r, m) :: rest =>
    if c ∈ m then
      if (m.filter (fun x => x != c)).isEmpty then removeFromRooms c rest
      else (r, m.filter (fun x => x != c)) :: removeFromRooms c rest
    else (r, m) :: removeFromRooms c rest

/-- The `case client := <-h.unregister` branch of `Hub.Run` (part_006):
guarded by membership in `h.clients`; removes the client from the live set
and from every room's member set, garbage-collecting emptied entries. -/
def Hub.unregister (h : Hub) (c : Nat) : Hub :=
  if c ∈ h.clients then
    { clients := h.clients.filter (fun x => x != c), rooms := removeFromRooms c h.rooms }
  else h

/-- Result of `Hub.broadcastToRoom`: the new registry state, the members whose
queue accepted the frame, and the members force-closed on overflow
(`close(client.send)`). -/
structure BroadcastResult where
  hub : Hub
  delivered : List Nat
  closed : List Nat
deriving Repr

/-- Go `Hub.broadcastToRoom` (part_006): no-op when the room has no entry;
otherwise each member's queue is offered the frame with a `select`/`default`
send; members whose queue is full have their channel closed and are deleted
from this room's member map and from `h.clients`. The room entry itself is
not removed, even when the member set became empty. `q` gives each member's
outbound-queue state at broadcast time. -/
def Hub.broadcastToRoom (h : Hub) (q : Nat → Chan) (roomID : Nat) : BroadcastResult :=
  match lookupRoom roomID h.rooms with
  | none => ⟨h, [], []⟩
  | some members =>
    let closedL := members.filter (fun c => (q c).trySend.isNone)
    let deliveredL := members.filter (fun c => (q c).trySend.isSome)
    ⟨{ clients := h.clients.filter (fun c => decide (c ∉ closedL)),
       rooms := updateVal roomID deliveredL h.rooms },
     deliveredL, closedL⟩

/-- The registry invariant stated in §3 of the spec: no room id maps to an
empty member set. -/
abbrev NoEmptyRooms (h : Hub) : Prop := ∀ p ∈ h.rooms, p.2 ≠ []

/-! ### Room-id parsing (part_005, `parseRoomID`) -/

/-- The numeric value of a digit string, most significant digit first. -/
def decDigits (s : String) : Nat :=
  s.data.foldl (fun acc ch => acc * 10 + (ch.toNat - 48)) 0

/-- The strings accepted by Go's `strconv.ParseUint(s, 10, 64)`: non-empty,
all decimal digits, value within 64 bits. -/
def validUint64 (s : String) : Bool :=
  (!s.isEmpty) && s.data.all (fun ch => ch.isDigit) && decide (decDigits s < 2 ^ 64)

/-- Go `parseRoomID` (part_005): `strconv.ParseUint(roomID, 10, 64)`, returning 0
when parsing fails. -/
def parseRoomID (s : String) : Nat :=
  if validUint64 s then decDigits s else 0

/-! ### Read loop (part_005, `Client.readPump`) -/

/-- One event observed by the read loop: a successful read of a decodable
frame, a successful read of an undecodable frame, a pong control frame
(running the pong handler), or a transport error / deadline expiry. -/
inductive ReadEvent
  | frameOk (payload : String)
  | frameBad
  | pong
  | readErr
deriving DecidableEq, Repr

/-- Actions the read loop performs on the connection. -/
inductive PumpAct
  | setReadDeadline
  | handleMessage (payload : String)
  | unregisterSelf
deriving DecidableEq, Repr

/-- The loop body of `Client.readPump` (part_005): a decodable frame is passed
to `HandleIncomingMessage` (no deadline call); an undecodable frame is logged
and the loop continues; a pong runs the pong handler, which calls
`SetReadDeadline`; a read error breaks the loop, triggering the deferred
`c.hub.unregister <- c`. -/
def readPumpLoop : List ReadEvent → List PumpAct
  | [] => []
  | .frameOk p :: rest => .handleMessage p :: readPumpLoop rest
  | .frameBad :: rest => readPumpLoop rest
  | .pong :: rest => .setReadDeadline :: readPumpLoop rest
  | .readErr :: _ => [.unregisterSelf]

/-- Go `Client.readPump` (part_005): one `SetReadDeadline` at setup, then the
read loop over the connection's events. -/
def readPump (evs : List ReadEvent) : List PumpAct :=
  .setReadDeadline :: readPumpLoop evs

/-- Number of `SetReadDeadline` calls in a read-loop trace. -/
def countDeadlineSets : List PumpAct → Nat
  | [] => 0
  | .setReadDeadline :: rest => countDeadlineSets rest + 1
  | _ :: rest => countDeadlineSets rest

/-- Number of pong receipts in an event list. -/
def countPongs : List ReadEvent → Nat
  | [] => 0
  | .pong :: rest => countPongs rest + 1
  | _ :: rest => countPongs rest

/-- The prefix of events the loop actually consumes (it stops at the first
read error). -/
def untilReadErr : List ReadEvent → List ReadEvent
  | [] => []
  | .readErr :: _ => []
  | e :: rest => e :: untilReadErr rest

/-! ### Database model (gorm calls made by the websocket handlers) -/

/-- Go `models.User`, restricted to the fields the websocket handlers read. -/
structure User where
  id : Nat
  username : String
  tag : String
deriving DecidableEq, Repr

/-- Go `models.Room`, restricted to the fields the websocket handlers read. -/
structure Room where
  id : Nat
  name : String
deriving DecidableEq, Repr

/-- Go `models.RoomUser` (durable room membership). -/
structure RoomUser where
  roomID : Nat
  userID : Nat
deriving DecidableEq, Repr

/-- Go `models.InviteRequest`, restricted to the fields the handlers use. -/
structure InviteRequest where
  id : Nat
  roomID : Nat
  senderID : Nat
  receiverID : Nat
  status : String
deriving DecidableEq, Repr

/-- The persistence collaborator's visible state, plus injected outcomes for
the durable writes the handlers attempt (`true` = the gorm call succeeds).
Record lists are ordered by primary key, so `find?` models gorm's `First`. -/
structure DB where
  users : List User
  rooms : List Room
  roomUsers : List RoomUser
  invites : List InviteRequest
  nextMessageID : Nat
  nextInviteID : Nat
  saveMessageOk : Bool
  createInviteOk : Bool
  saveInviteOk : Bool
  createRoomUserOk : Bool
deriving Repr

/-- Go `database.DB.Where("username = ?", username).First(&receiver)` — note the
query matches on username only; the payload's tag is not part of it. -/
def findUserByUsername (db : DB) (username : String) : Option User :=
  db.users.find? (fun u => u.username == username)

/-- Go `database.DB.First(&user, userID)`. -/
def findUserByID (db : DB) (userID : Nat) : Option User :=
  db.users.find? (fun u => u.id == userID)

/-- Go `database.DB.Where("room_id = ? AND user_id = ?", roomID, userID).First`. -/
def findRoomUser (db : DB) (roomID userID : Nat) : Option RoomUser :=
  db.roomUsers.find? (fun ru => ru.roomID == roomID && ru.userID == userID)

/-- Go `database.DB.Where("room_id = ? AND receiver_id = ? AND status = 'pending'", ...).First`. -/
def findPendingInvite (db : DB) (roomID receiverID : Nat) : Option InviteRequest :=
  db.invites.find? (fun i => i.roomID == roomID && i.receiverID == receiverID && i.status == "pending")

/-- Go `database.DB.First(&room, roomID)`. -/
def findRoom (db : DB) (roomID : Nat) : Option Room :=
  db.rooms.find? (fun r => r.id == roomID)

/-- A durable write attempted by a handler. -/
inductive DBEffect
  | saveMessage (userID roomID : Nat) (content : String)
  | updateLastRead (userID roomID : Nat)
  | createInvite (roomID senderID receiverID : Nat)
  | updateInviteStatus (inviteID : Nat) (status : String)
  | createRoomUser (roomID userID : Nat)
deriving DecidableEq, Repr

/-! ### Dispatcher and handlers (part_005, part_006, part_007) -/

/-- A connected client as the handlers see it: its identity (`cid` numbers the
`*Client` pointer), its user id, and its session room-membership set
(`c.rooms map[uint]bool`). -/
structure WsClient where
  cid : Nat
  userID : Nat
  rooms : List Nat
deriving DecidableEq, Repr

/-- Go `Client.inRoom` (part_005): `return c.rooms[roomID]`. -/
def WsClient.inRoom (c : WsClient) (roomID : Nat) : Bool :=
  c.rooms.contains roomID

/-- An outbound envelope, by type and payload fields as marshalled by the
handlers in part_006/part_007. -/
inductive Frame
  | errorMsg (message : String)
  | chatMessage (id userID roomID : Nat) (content : String)
  | inviteReceived (inviteID roomID : Nat) (roomName sender : String)
  | inviteSent (inviteID roomID : Nat) (roomName : String) (receiverID : Nat)
  | userJoined (roomID userID : Nat) (username : String)
  | roomJoined (room : Room)
  | inviteRejected (inviteID roomID userID : Nat)
  | inviteRejectedConfirmation (inviteID roomID : Nat)
deriving DecidableEq, Repr

/-- An outbound delivery requested by a handler: a send on one client's own
channel (`client.send <- bytes`), or a room broadcast
(`hub.broadcastToRoom(roomID, bytes)`). -/
inductive Out
  | direct (cid : Nat) (f : Frame)
  | room (roomID : Nat) (f : Frame)
deriving DecidableEq, Repr

/-- A registry/session mutation requested by a handler: `Client.joinRoom`
(adds the room to `c.rooms` and calls `hub.joinRoom`) or `Client.leaveRoom`. -/
inductive ClientAction
  | sessionJoin (roomID : Nat)
  | sessionLeave (roomID : Nat)
deriving DecidableEq, Repr

/-- Everything a handler invocation does: outbound deliveries in order,
attempted durable writes in order, and session/registry mutations. -/
structure HandlerOutput where
  outs : List Out
  dbEff : List DBEffect
  acts : List ClientAction
deriving DecidableEq, Repr

/-- Go `sendErrorToClient` (part_007) at the dispatch level: one `error` envelope
on the originating client's own channel. -/
def errTo (c : WsClient) (message : String) : Out :=
  .direct c.cid (.errorMsg message)

/-- Go `updateLastReadTime` (part_006): looks up the durable `RoomUser` record;
if absent, logs and returns; otherwise saves it with a fresh timestamp —
a durable write. -/
def updateLastReadTime (db : DB) (userID roomID : Nat) : List DBEffect :=
  match findRoomUser db roomID userID with
  | none => []
  | some _ => [.updateLastRead userID roomID]

/-- Go `notifyUserOfInvite` (part_007): iterate `hub.clients`; the first client
whose user id matches gets the `invite_received` envelope on its channel, then
`break`. -/
def notifyUserOfInvite (conns : List WsClient) (userID : Nat) (inv : InviteRequest)
    (roomName senderName : String) : List Out :=
  match conns with
  | [] => []
  | c :: rest =>
    if c.userID = userID then
      [.direct c.cid (.inviteReceived inv.id inv.roomID roomName senderName)]
    else notifyUserOfInvite rest userID inv roomName senderName

/-- Go `notifyInviterOfRejection` (part_007): iterate `hub.clients`; the first
client whose user id matches the invite's sender gets the `invite_rejected`
envelope, then `break`. -/
def notifyInviterOfRejection (conns : List WsClient) (inv : InviteRequest) : List Out :=
  match conns with
  | [] => []
  | c :: rest =>
    if c.userID = inv.senderID then
      [.direct c.cid (.inviteRejected inv.id inv.roomID inv.receiverID)]
    else notifyInviterOfRejection rest inv

/-- Go `notifyRoomOfNewMember` (part_007): load the user (abort silently when
absent), then broadcast `user_joined` to the room. -/
def notifyRoomOfNewMember (db : DB) (roomID userID : Nat) : List Out :=
  match findUserByID db userID with
  | none => []
  | some user => [.room roomID (.userJoined roomID userID user.username)]

/-- The `{room_id, username, tag}` payload of `invite_users`. -/
structure InvitePayload where
  roomID : Nat
  username : String
  tag : String
deriving DecidableEq, Repr

/-- Go `HandleInviteUsers` (part_007), in source order: session-membership check,
receiver lookup (by username), already-member check, pending-invite check,
room lookup, invite creation; on success the receiver (first matching live
connection, if any) gets `invite_received` and the sender gets `invite_sent`. -/
def HandleInviteUsers (db : DB) (conns : List WsClient) (client : WsClient)
    (p : InvitePayload) : HandlerOutput :=
  if !client.inRoom p.roomID then
    ⟨[errTo client "You must be a member of the room to invite others"], [], []⟩
  else
    match findUserByUsername db p.username with
    | none => ⟨[errTo client "User not found"], [], []⟩
    | some receiver =>
      if (findRoomUser db p.roomID receiver.id).isSome then
        ⟨[errTo client "User is already a member of this room"], [], []⟩
      else if (findPendingInvite db p.roomID receiver.id).isSome then
        ⟨[errTo client "An invitation has already been sent to this user"], [], []⟩
      else
        match findRoom db p.roomID with
        | none => ⟨[errTo client "Room not found"], [], []⟩
        | some room =>
          if !db.createInviteOk then
            ⟨[errTo client "Failed to create invitation"],
             [.createInvite p.roomID client.userID receiver.id], []⟩
          else
            let inv : InviteRequest :=
              ⟨db.nextInviteID, p.roomID, client.userID, receiver.id, "pending"⟩
            let senderName := ((findUserByID db client.userID).map User.username).getD ""
            ⟨notifyUserOfInvite conns receiver.id inv room.name senderName
               ++ [.direct client.cid (.inviteSent inv.id inv.roomID room.name receiver.id)],
             [.createInvite p.roomID client.userID receiver.id], []⟩

/-- The body of `HandleAcceptInvite` (part_007) after room-id parsing: find
the pending invite for (room, this user); mark it accepted (`DB.Save`);
create the durable `RoomUser` record (`DB.Create`); only if both writes
succeed, session-join the room, broadcast `user_joined`, and send
`room_joined` (with the room loaded ignoring lookup failure). -/
def HandleAcceptInviteAt (db : DB) (client : WsClient) (roomID : Nat) : HandlerOutput :=
  match findPendingInvite db roomID client.userID with
  | none => ⟨[errTo client "Invitation not found or already processed"], [], []⟩
  | some inv =>
    if !db.saveInviteOk then
      ⟨[errTo client "Failed to accept invitation"],
       [.updateInviteStatus inv.id "accepted"], []⟩
    else if !db.createRoomUserOk then
      ⟨[errTo client "Failed to join room"],
       [.updateInviteStatus inv.id "accepted", .createRoomUser roomID client.userID], []⟩
    else
      let room := (findRoom db roomID).getD ⟨0, ""⟩
      ⟨notifyRoomOfNewMember db roomID client.userID
         ++ [.direct client.cid (.roomJoined room)],
       [.updateInviteStatus inv.id "accepted", .createRoomUser roomID client.userID],
       [.sessionJoin roomID]⟩

/-- Go `HandleAcceptInvite` (part_007): parse the room id, then process. -/
def HandleAcceptInvite (db : DB) (client : WsClient) (roomIDStr : String) : HandlerOutput :=
  HandleAcceptInviteAt db client (parseRoomID roomIDStr)

/-- Go `HandleRejectInvite` (part_007): find the pending invite, mark it rejected
(`DB.Save`); on success notify the original sender's first live connection and
confirm to the rejecter. -/
def HandleRejectInvite (db : DB) (conns : List WsClient) (client : WsClient)
    (roomIDStr : String) : HandlerOutput :=
  let roomID := parseRoomID roomIDStr
  match findPendingInvite db roomID client.userID with
  | none => ⟨[errTo client "Invitation not found or already processed"], [], []⟩
  | some inv =>
    if !db.saveInviteOk then
      ⟨[errTo client "Failed to reject invitation"],
       [.updateInviteStatus inv.id "rejected"], []⟩
    else
      ⟨notifyInviterOfRejection conns inv
         ++ [.direct client.cid (.inviteRejectedConfirmation inv.id inv.roomID)],
       [.updateInviteStatus inv.id "rejected"], []⟩

/-- A decoded inbound payload: the `string` case of the type assertion, the
`MessagePayload` shape, the `InvitePayload` shape, or anything else. -/
inductive InPayload
  | str (s : String)
  | msgPayload (roomID : Nat) (content : String)
  | invitePayload (roomID : Nat) (username tag : String)
  | other
deriving DecidableEq, Repr

/-- A decoded inbound envelope `{type, payload}`. -/
structure InMsg where
  type : String
  payload : InPayload
deriving DecidableEq, Repr

/-- Go `HandleIncomingMessage` (part_006): dispatch on the envelope type.
`join_room` session-joins the parsed room and updates the durable last-read
timestamp; `leave_room` session-leaves; `message` silently drops the frame
(log only) unless the client is a session member, otherwise saves the message
(aborting silently on failure) and broadcasts it; the invite types delegate.
A payload of the wrong shape, or an unknown type, is ignored. -/
def HandleIncomingMessage (db : DB) (conns : List WsClient) (client : WsClient)
    (msg : InMsg) : HandlerOutput :=
  if msg.type = "join_room" then
    match msg.payload with
    | .str s =>
      ⟨[], updateLastReadTime db client.userID (parseRoomID s), [.sessionJoin (parseRoomID s)]⟩
    | _ => ⟨[], [], []⟩
  else if msg.type = "leave_room" then
    match msg.payload with
    | .str s => ⟨[], [], [.sessionLeave (parseRoomID s)]⟩
    | _ => ⟨[], [], []⟩
  else if msg.type = "message" then
    match msg.payload with
    | .msgPayload roomID content =>
      if !client.inRoom roomID then ⟨[], [], []⟩
      else if !db.saveMessageOk then ⟨[], [.saveMessage client.userID roomID content], []⟩
      else
        ⟨[.room roomID (.chatMessage db.nextMessageID client.userID roomID content)],
         [.saveMessage client.userID roomID content], []⟩
    | _ => ⟨[], [], []⟩
  else if msg.type = "invite_users" then
    match msg.payload with
    | .invitePayload roomID username tag =>
      HandleInviteUsers db conns client ⟨roomID, username, tag⟩
    | _ => ⟨[], [], []⟩
  else if msg.type = "accept_invite" then
    match msg.payload with
    | .str s => HandleAcceptInvite db client s
    | _ => ⟨[], [], []⟩
  else if msg.type = "reject_invite" then
    match msg.payload with
    | .str s => HandleRejectInvite db conns client s
    | _ => ⟨[], [], []⟩
  else ⟨[], [], []⟩

/-! ### Helper lemmas about the registry's association-list operations -/

theorem lookupRoom_mem (k : Nat) (v : List Nat) :
    ∀ l : List (Nat × List Nat), lookupRoom k l = some v → (k, v) ∈ l := by
  intro l
  induction l with
  | nil => intro h; simp [lookupRoom] at h
  | cons p rest ih =>
    intro h
    rw [lookupRoom] at h
    by_cases hk : p.1 = k
    · rw [if_pos hk] at h
      have hv : p.2 = v := by injection h
      have hp : (k, v) = p := by
        cases p
        simp_all
      rw [hp]
      exact List.mem_cons_self ..
    · rw [if_neg hk] at h
      exact List.mem_cons_of_mem _ (ih h)

theorem updateVal_self (k : Nat) (v : List Nat) :
    ∀ l : List (Nat × List Nat), lookupRoom k l = some v → updateVal k v l = l := by
  intro l
  induction l with
  | nil => intro h; simp [lookupRoom] at h
  | cons p rest ih =>
    intro h
    rw [lookupRoom] at h
    rw [updateVal]
    by_cases hk : p.1 = k
    · rw [if_pos hk] at h
      have hv : p.2 = v := by injection h
      rw [if_pos hk]
      cases p
      simp_all
    · rw [if_neg hk] at h
      rw [if_neg hk, ih h]

theorem mem_updateVal (k : Nat) (v : List Nat) (p : Nat × List Nat) :
    ∀ l, p ∈ updateVal k v l → p ∈ l ∨ p = (k, v) := by
  intro l
  induction l with
  | nil => intro h; simp [updateVal] at h
  | cons q rest ih =>
    intro h
    rw [updateVal] at h
    by_cases hk : q.1 = k
    · rw [if_pos hk] at h
      rcases List.mem_cons.mp h with h1 | h2
      · right; exact h1
      · left; exact List.mem_cons_of_mem _ h2
    · rw [if_neg hk] at h
      rcases List.mem_cons.mp h with h1 | h2
      · left; rw [h1]; exact List.mem_cons_self ..
      · rcases ih h2 with h3 | h3
        · left; exact List.mem_cons_of_mem _ h3
        · right; exact h3

theorem mem_eraseRoom (k : Nat) (p : Nat × List Nat) :
    ∀ l, p ∈ eraseRoom k l → p ∈ l := by
  intro l
  induction l with
  | nil => intro h; simp [eraseRoom] at h
  | cons q rest ih =>
    intro h
    rw [eraseRoom] at h
    by_cases hk : q.1 = k
    · rw [if_pos hk] at h
      exact List.mem_cons_of_mem _ h
    · rw [if_neg hk] at h
      rcases List.mem_cons.mp h with h1 | h2
      · rw [h1]; exact List.mem_cons_self ..
      · exact List.mem_cons_of_mem _ (ih h2)

theorem insertClient_ne_nil (c : Nat) (l : List Nat) : insertClient c l ≠ [] := by
  unfold insertClient
  split
  · next h => exact List.ne_nil_of_mem h
  · simp

theorem noEmpty_joinRoom (h : Hub) (c R : Nat) (hne : NoEmptyRooms h) :
    NoEmptyRooms (h.joinRoom c R) := by
  intro p hp
  unfold Hub.joinRoom at hp
  cases e : lookupRoom R h.rooms with
  | none =>
    rw [e] at hp
    simp only at hp
    rcases List.mem_append.mp hp with h1 | h1
    · exact hne p h1
    · simp at h1
      rw [h1]
      simp
  | some m =>
    rw [e] at hp
    simp only at hp
    rcases mem_updateVal _ _ _ _ hp with h1 | h1
    · exact hne p h1
    · rw [h1]
      exact insertClient_ne_nil c m

theorem noEmpty_leaveRoom (h : Hub) (c R : Nat) (hne : NoEmptyRooms h) :
    NoEmptyRooms (h.leaveRoom c R) := by
  intro p hp
  unfold Hub.leaveRoom at hp
  cases e : lookupRoom R h.rooms with
  | none =>
    rw [e] at hp
    exact hne p hp
  | some m =>
    rw [e] at hp
    simp only at hp
    by_cases hemp : (m.filter (fun x => x != c)).isEmpty
    · rw [if_pos hemp] at hp
      exact hne p (mem_eraseRoom _ _ _ hp)
    · rw [if_neg hemp] at hp
      rcases mem_updateVal _ _ _ _ hp with h1 | h1
      · exact hne p h1
      · rw [h1]
        simpa [List.isEmpty_iff] using hemp

theorem noEmpty_removeFromRooms (c : Nat) :
    ∀ l : List (Nat × List Nat), (∀ p ∈ l, p.2 ≠ []) → ∀ p ∈ removeFromRooms c l, p.2 ≠ [] := by
  intro l
  induction l with
  | nil => intro _ p hp; simp [removeFromRooms] at hp
  | cons q rest ih =>
    intro hl p hp
    obtain ⟨r, m⟩ := q
    rw [removeFromRooms] at hp
    by_cases hc : c ∈ m
    · rw [if_pos hc] at hp
      by_cases hemp : (m.filter (fun x => x != c)).isEmpty
      · rw [if_pos hemp] at hp
        exact ih (fun x hx => hl x (List.mem_cons_of_mem _ hx)) p hp
      · rw [if_neg hemp] at hp
        rcases List.mem_cons.mp hp with h1 | h2
        · rw [h1]
          simpa [List.isEmpty_iff] using hemp
        · exact ih (fun x hx => hl x (List.mem_cons_of_mem _ hx)) p h2
    · rw [if_neg hc] at hp
      rcases List.mem_cons.mp hp with h1 | h2
      · rw [h1]
        exact hl (r, m) (List.mem_cons_self ..)
      · exact ih (fun x hx => hl x (List.mem_cons_of_mem _ hx)) p h2

theorem noEmpty_unregister (h : Hub) (c : Nat) (hne : NoEmptyRooms h) :
    NoEmptyRooms (h.unregister c) := by
  intro p hp
  unfold Hub.unregister at hp
  by_cases hc : c ∈ h.clients
  · rw [if_pos hc] at hp
    exact noEmpty_removeFromRooms c h.rooms hne p hp
  · rw [if_neg hc] at hp
    exact hne p hp

theorem broadcastToRoom_some (h : Hub) (q : Nat → Chan) (R : Nat) (members : List Nat)
    (hm : lookupRoom R h.rooms = some members) :
    h.broadcastToRoom q R =
      ⟨{ clients :=
           h.clients.filter (fun c => decide (c ∉ members.filter (fun x => (q x).trySend.isNone))),
         rooms := updateVal R (members.filter (fun x => (q x).trySend.isSome)) h.rooms },
       members.filter (fun x => (q x).trySend.isSome),
       members.filter (fun x => (q x).trySend.isNone)⟩ := by
  unfold Hub.broadcastToRoom
  rw [hm]

theorem countDeadlineSets_loop (evs : List ReadEvent) :
    countDeadlineSets (readPumpLoop evs) = countPongs (untilReadErr evs) := by
  induction evs with
  | nil => rfl
  | cons e rest ih =>
    cases e with
    | frameOk p => simpa [readPumpLoop, untilReadErr, countDeadlineSets, countPongs] using ih
    | frameBad => simpa [readPumpLoop, untilReadErr, countDeadlineSets, countPongs] using ih
    | pong => simp [readPumpLoop, untilReadErr, countDeadlineSets, countPongs, ih]
    | readErr => rfl

/-! ### Claim theorems -/

/-- C2, counterexample. The claim states that after every registry operation —
explicitly including broadcast with overflow removal — no room id maps to an
empty member set. On the concrete registry with live client 1 as the sole
member of room 5 and a full outbound queue for every client,
`broadcastToRoom` removes the overflowing member from the room's member map
and from the live set but leaves the now-empty entry for room 5 in the index,
so the invariant is broken by that operation. -/
theorem claim2_counterexample :
    NoEmptyRooms (⟨[1], [(5, [1])]⟩ : Hub)
    ∧ (Hub.broadcastToRoom ⟨[1], [(5, [1])]⟩ (fun _ => ⟨256, 256⟩) 5).hub.rooms = [(5, [])]
    ∧ ¬ NoEmptyRooms (Hub.broadcastToRoom ⟨[1], [(5, [1])]⟩ (fun _ => ⟨256, 256⟩) 5).hub := by
  decide

/-- C2, amended: after `joinRoom`, `leaveRoom` and the unregister branch of
`Hub.Run`, no room id maps to an empty member set (an entry emptied by the
operation is deleted in the same operation); `broadcastToRoom`'s overflow
removal, however, deletes the overflowing member without garbage-collecting
the room entry, so an empty entry can persist until a later leave or
unregister touches it. -/
theorem claim2_amended (h : Hub) (c R : Nat) (hne : NoEmptyRooms h) :
    NoEmptyRooms (h.joinRoom c R) ∧ NoEmptyRooms (h.leaveRoom c R)
    ∧ NoEmptyRooms (h.unregister c) :=
  ⟨noEmpty_joinRoom h c R hne, noEmpty_leaveRoom h c R hne, noEmpty_unregister h c hne⟩

/-- C2, witness: the amended invariant preservation evaluated on a concrete
registry. -/
theorem claim2_amended_witness :
    NoEmptyRooms (Hub.joinRoom ⟨[1], [(5, [1])]⟩ 1 5)
    ∧ NoEmptyRooms (Hub.leaveRoom ⟨[1], [(5, [1])]⟩ 1 5)
    ∧ NoEmptyRooms (Hub.unregister ⟨[1], [(5, [1])]⟩ 1) :=
  claim2_amended ⟨[1], [(5, [1])]⟩ 1 5 (by decide)

/-- C3, counterexample. The claim states that when broadcasting *or directly
delivering* a frame to a connection whose bounded outbound queue is full, the
connection is force-closed rather than the sender blocking. Direct delivery
(`sendErrorToClient`, and likewise the invite notification/confirmation
helpers) performs a plain blocking channel send: on a full queue (256 of 256
slots occupied) the send blocks the calling goroutine and no force-close
happens. -/
theorem claim3_counterexample :
    sendErrorDelivery ⟨256, 256⟩ = SendAttempt.blocked := by
  decide

/-- C3, amended: broadcast enqueue (`broadcastToRoom`) never blocks — a member
whose queue is full is force-closed (channel closed, removed from the
live-connection set, frame not delivered) and a member with queue room gets
the frame enqueued; but *direct* per-client delivery (`client.send <- bytes`
in `sendErrorToClient` and the invite helpers) blocks the sending goroutine
when the target queue is full instead of force-closing the connection. -/
theorem claim3_amended (h : Hub) (q : Nat → Chan) (R c : Nat) (members : List Nat)
    (hm : lookupRoom R h.rooms = some members) (hc : c ∈ members) :
    ((q c).trySend = none →
        c ∈ (h.broadcastToRoom q R).closed
        ∧ c ∉ (h.broadcastToRoom q R).hub.clients
        ∧ c ∉ (h.broadcastToRoom q R).delivered)
    ∧ ((q c).trySend.isSome = true → c ∈ (h.broadcastToRoom q R).delivered)
    ∧ (∀ ch : Chan, ch.cap ≤ ch.pending → sendErrorDelivery ch = SendAttempt.blocked) := by
  rw [broadcastToRoom_some h q R members hm]
  refine ⟨?_, ?_, ?_⟩
  · intro hnone
    have hcl : c ∈ members.filter (fun x => (q x).trySend.isNone) :=
      List.mem_filter.mpr ⟨hc, by simp [hnone]⟩
    refine ⟨hcl, ?_, ?_⟩
    · intro habs
      have h2 := (List.mem_filter.mp habs).2
      simp only [decide_eq_true_eq] at h2
      exact h2 hcl
    · intro habs
      have h2 := (List.mem_filter.mp habs).2
      simp [hnone] at h2
  · intro hsome
    exact List.mem_filter.mpr ⟨hc, by simpa using hsome⟩
  · intro ch hch
    unfold sendErrorDelivery Chan.blockingSend
    rw [if_neg (Nat.not_lt.mpr hch)]

/-- C3, witness: the amended broadcast overflow property evaluated on a
concrete registry where member 1 of room 5 has a full queue. -/
theorem claim3_amended_witness :
    1 ∈ (Hub.broadcastToRoom ⟨[1, 2], [(5, [1, 2])]⟩
          (fun x => if x = 1 then ⟨256, 256⟩ else ⟨0, 256⟩) 5).closed
    ∧ 1 ∉ (Hub.broadcastToRoom ⟨[1, 2], [(5, [1, 2])]⟩
          (fun x => if x = 1 then ⟨256, 256⟩ else ⟨0, 256⟩) 5).hub.clients
    ∧ 1 ∉ (Hub.broadcastToRoom ⟨[1, 2], [(5, [1, 2])]⟩
          (fun x => if x = 1 then ⟨256, 256⟩ else ⟨0, 256⟩) 5).delivered :=
  (claim3_amended ⟨[1, 2], [(5, [1, 2])]⟩
    (fun x => if x = 1 then ⟨256, 256⟩ else ⟨0, 256⟩) 5 1 [1, 2] rfl (by decide)).1 rfl

/-- C6, counterexample. The claim states that for every connection and room,
leaving a room the connection never joined leaves the registry state
unchanged. That fails on a reachable registry: broadcasting to room 5 whose
sole member has a full queue force-closes that member but leaves the emptied
entry for room 5 in the index; on the resulting registry, client 2 — which
never joined room 5 — issues a leave, `leaveRoom` finds the stale entry, the
member-map delete is a no-op, the `len == 0` cleanup fires, and the entry for
room 5 is deleted: the registry state changes. -/
theorem claim6_counterexample :
    (Hub.broadcastToRoom ⟨[1], [(5, [1])]⟩ (fun _ => ⟨256, 256⟩) 5).hub
      = (⟨[], [(5, [])]⟩ : Hub)
    ∧ (2 : Nat) ∉ (lookupRoom 5 [(5, [])]).getD []
    ∧ Hub.leaveRoom ⟨[], [(5, [])]⟩ 2 5 = ⟨[], []⟩
    ∧ Hub.leaveRoom ⟨[], [(5, [])]⟩ 2 5 ≠ (⟨[], [(5, [])]⟩ : Hub) := by
  decide

/-- C6, amended: joining a room the client is already a member of leaves the
registry unchanged unconditionally (no duplicate entry, no error); leaving a
room the client is not a member of produces no error and leaves the registry
unchanged on any registry satisfying the no-empty-entry invariant (the one
join, leave and unregister maintain) — on a registry holding a stale empty
entry for the room, reachable only through broadcast overflow removal,
leaving that room instead garbage-collects the stale entry. -/
theorem claim6_amended (h : Hub) (c R : Nat) :
    (c ∈ (lookupRoom R h.rooms).getD [] → h.joinRoom c R = h)
    ∧ (NoEmptyRooms h → c ∉ (lookupRoom R h.rooms).getD [] → h.leaveRoom c R = h) := by
  constructor
  · intro hc
    unfold Hub.joinRoom
    cases e : lookupRoom R h.rooms with
    | none =>
      rw [e] at hc
      simp at hc
    | some m =>
      rw [e] at hc
      simp only [Option.getD_some] at hc
      simp only
      have hins : insertClient c m = m := by
        unfold insertClient
        rw [if_pos hc]
      rw [hins, updateVal_self R m h.rooms e]
  · intro hne hc
    unfold Hub.leaveRoom
    cases e : lookupRoom R h.rooms with
    | none => rfl
    | some m =>
      rw [e] at hc
      simp only [Option.getD_some] at hc
      simp only
      have hf : m.filter (fun x => x != c) = m :=
        List.filter_eq_self.mpr (fun a ha => by
          simp only [bne_iff_ne, ne_eq, decide_eq_true_eq]
          exact fun hac => hc (hac ▸ ha))
      rw [hf]
      have hm : m ≠ [] := hne (R, m) (lookupRoom_mem R m h.rooms e)
      rw [if_neg (by simpa [List.isEmpty_iff] using hm)]
      rw [updateVal_self R m h.rooms e]

/-- C6, witness: the amended idempotence evaluated on a concrete registry —
client 1 re-joins room 5 it is already in; client 2 leaves room 5 it never
joined. -/
theorem claim6_amended_witness :
    Hub.joinRoom ⟨[1, 2], [(5, [1])]⟩ 1 5 = ⟨[1, 2], [(5, [1])]⟩
    ∧ Hub.leaveRoom ⟨[1, 2], [(5, [1])]⟩ 2 5 = ⟨[1, 2], [(5, [1])]⟩ :=
  ⟨(claim6_amended ⟨[1, 2], [(5, [1])]⟩ 1 5).1 (by decide),
   (claim6_amended ⟨[1, 2], [(5, [1])]⟩ 2 5).2 (by decide) (by decide)⟩

/-- C7, counterexample. The claim states that every successful read of an
inbound frame resets the read deadline, in addition to the pong-receipt
renewal. In `Client.readPump` the only `SetReadDeadline` calls are the one at
setup and the one in the pong handler: a trace with two successful frame
reads and no pongs contains exactly one deadline set — the setup one — the
same number as a trace with no reads at all. -/
theorem claim7_counterexample :
    countDeadlineSets (readPump [ReadEvent.frameOk "a", ReadEvent.frameOk "b"]) = 1
    ∧ countDeadlineSets (readPump []) = 1 := by
  decide

/-- C7, amended: the read deadline is set exactly once at connection setup and
renewed only by pong receipts (one `SetReadDeadline` per pong consumed before
the first read error); a successful inbound read performs no deadline
renewal. -/
theorem claim7_amended (evs : List ReadEvent) :
    countDeadlineSets (readPump evs) = 1 + countPongs (untilReadErr evs) := by
  unfold readPump
  simp [countDeadlineSets, countDeadlineSets_loop evs, Nat.add_comm]

/-! ### Concrete database states and envelope predicates used by the
handler-level claims -/

/-- An empty database; every gorm call succeeds. -/
def dbEmpty : DB := ⟨[], [], [], [], 1, 1, true, true, true, true⟩

/-- A database whose only user is "bob" with tag "9999" (not "1234"), with
room 7 present and no memberships or invites. -/
def dbC4 : DB := ⟨[⟨5, "bob", "9999"⟩], [⟨7, "general"⟩], [], [], 1, 1, true, true, true, true⟩

/-- A database holding a pending invite (id 3) for room 7 and user 1, where
the durable room-membership creation (`DB.Create(&roomUser)`) fails. -/
def dbC5 : DB := ⟨[], [], [], [⟨3, 7, 2, 1, "pending"⟩], 1, 9, true, true, true, false⟩

/-- A database holding a durable membership record for user 1 in room 2. -/
def dbC8 : DB := ⟨[], [], [⟨2, 1⟩], [], 1, 1, true, true, true, true⟩

/-- Whether a handler emitted a `room_joined` envelope (direct or broadcast). -/
def hasRoomJoined (o : HandlerOutput) : Bool :=
  o.outs.any (fun x => match x with
    | .direct _ (.roomJoined _) => true
    | .room _ (.roomJoined _) => true
    | _ => false)

/-- Whether a handler emitted a `user_joined` envelope (direct or broadcast). -/
def hasUserJoined (o : HandlerOutput) : Bool :=
  o.outs.any (fun x => match x with
    | .direct _ (.userJoined _ _ _) => true
    | .room _ (.userJoined _ _ _) => true
    | _ => false)

/-! ### Helper lemmas about the first-match notification loops -/

theorem notifyUser_length (conns : List WsClient) (uid : Nat) (inv : InviteRequest)
    (rn sn : String) : (notifyUserOfInvite conns uid inv rn sn).length ≤ 1 := by
  induction conns with
  | nil => simp [notifyUserOfInvite]
  | cons c rest ih =>
    rw [notifyUserOfInvite]
    by_cases hcu : c.userID = uid
    · rw [if_pos hcu]; simp
    · rw [if_neg hcu]; exact ih

theorem notifyUser_none : ∀ (conns : List WsClient) (uid : Nat) (inv : InviteRequest)
    (rn sn : String), (∀ c ∈ conns, c.userID ≠ uid) →
    notifyUserOfInvite conns uid inv rn sn = [] := by
  intro conns uid inv rn sn
  induction conns with
  | nil => intro _; rfl
  | cons c rest ih =>
    intro hno
    rw [notifyUserOfInvite, if_neg (hno c (List.mem_cons_self ..))]
    exact ih (fun x hx => hno x (List.mem_cons_of_mem _ hx))

theorem notifyUser_first : ∀ (conns : List WsClient) (uid : Nat) (inv : InviteRequest)
    (rn sn : String) (c : WsClient), conns.find? (fun x => x.userID == uid) = some c →
    notifyUserOfInvite conns uid inv rn sn
      = [Out.direct c.cid (Frame.inviteReceived inv.id inv.roomID rn sn)] := by
  intro conns uid inv rn sn
  induction conns with
  | nil => intro c h; simp at h
  | cons d rest ih =>
    intro c h
    by_cases hd : d.userID = uid
    · rw [List.find?_cons_of_pos _ (by simp [hd])] at h
      injection h with h
      subst h
      rw [notifyUserOfInvite, if_pos hd]
    · rw [List.find?_cons_of_neg _ (by simp [hd])] at h
      rw [notifyUserOfInvite, if_neg hd]
      exact ih c h

theorem notifyInviter_length (conns : List WsClient) (inv : InviteRequest) :
    (notifyInviterOfRejection conns inv).length ≤ 1 := by
  induction conns with
  | nil => simp [notifyInviterOfRejection]
  | cons c rest ih =>
    rw [notifyInviterOfRejection]
    by_cases hcu : c.userID = inv.senderID
    · rw [if_pos hcu]; simp
    · rw [if_neg hcu]; exact ih

theorem notifyInviter_none : ∀ (conns : List WsClient) (inv : InviteRequest),
    (∀ c ∈ conns, c.userID ≠ inv.senderID) → notifyInviterOfRejection conns inv = [] := by
  intro conns inv
  induction conns with
  | nil => intro _; rfl
  | cons c rest ih =>
    intro hno
    rw [notifyInviterOfRejection, if_neg (hno c (List.mem_cons_self ..))]
    exact ih (fun x hx => hno x (List.mem_cons_of_mem _ hx))

theorem notifyInviter_first : ∀ (conns : List WsClient) (inv : InviteRequest) (c : WsClient),
    conns.find? (fun x => x.userID == inv.senderID) = some c →
    notifyInviterOfRejection conns inv
      = [Out.direct c.cid (Frame.inviteRejected inv.id inv.roomID inv.receiverID)] := by
  intro conns inv
  induction conns with
  | nil => intro c h; simp at h
  | cons d rest ih =>
    intro c h
    by_cases hd : d.userID = inv.senderID
    · rw [List.find?_cons_of_pos _ (by simp [hd])] at h
      injection h with h
      subst h
      rw [notifyInviterOfRejection, if_pos hd]
    · rw [List.find?_cons_of_neg _ (by simp [hd])] at h
      rw [notifyInviterOfRejection, if_neg hd]
      exact ih c h

/-- C1, counterexample. The claim states that a `message` envelope naming a
room outside the connection's session membership yields an `error` envelope
back to the sender (besides no broadcast and no persistence). In
`HandleIncomingMessage` this precondition failure only logs and returns:
here a client with empty session membership sends `message` for room 3 and
the handler produces no outbound envelope at all — in particular no `error`
envelope — so the claim's error-envelope part is false. -/
theorem claim1_counterexample :
    HandleIncomingMessage dbEmpty [] ⟨0, 1, []⟩ ⟨"message", .msgPayload 3 "hi"⟩
      = ⟨[], [], []⟩ := by
  decide

/-- C1, amended: sending `message` for a room the connection has not joined
in-session causes no broadcast and no persistence call, but also no `error`
envelope — the frame is logged and silently dropped (the handler's output is
completely empty). -/
theorem claim1_amended (db : DB) (conns : List WsClient) (client : WsClient)
    (roomID : Nat) (content : String) (hnm : client.inRoom roomID = false) :
    HandleIncomingMessage db conns client ⟨"message", .msgPayload roomID content⟩
      = ⟨[], [], []⟩ := by
  simp [HandleIncomingMessage, hnm]

/-- C1, witness: the amended silent-drop behaviour evaluated at a concrete
client and payload. -/
theorem claim1_amended_witness :
    HandleIncomingMessage dbEmpty [] ⟨2, 9, []⟩ ⟨"message", .msgPayload 4 "x"⟩
      = ⟨[], [], []⟩ :=
  claim1_amended dbEmpty [] ⟨2, 9, []⟩ 4 "x" (by decide)

/-- C4, counterexample. The claim states that the invite receiver is resolved
by the pair (username, tag) and that an invite is created only when both
match. `HandleInviteUsers` queries by username alone: with the only user
being ("bob", tag "9999") and a payload naming ("bob", tag "1234"), the
handler still creates an invite for that user (durable write
`createInvite 7 10 5`), although no user matches both username and tag. -/
theorem claim4_counterexample :
    (HandleInviteUsers dbC4 [] ⟨0, 10, [7]⟩ ⟨7, "bob", "1234"⟩).dbEff
      = [DBEffect.createInvite 7 10 5]
    ∧ ¬ ∃ u ∈ dbC4.users, u.username = "bob" ∧ u.tag = "1234" := by
  decide

/-- C4, amended: the receiver is resolved by username alone (the first user
whose username matches; the payload's tag is ignored). If no user with that
username exists the sender receives an `error` envelope and no invite is
created; any invite the handler creates is for the user found by the
username lookup, for the payload's room, sent by the requesting user. -/
theorem claim4_amended (db : DB) (conns : List WsClient) (client : WsClient)
    (p : InvitePayload) (hin : client.inRoom p.roomID = true) :
    (findUserByUsername db p.username = none →
       HandleInviteUsers db conns client p
         = ⟨[errTo client "User not found"], [], []⟩)
    ∧ (∀ u, findUserByUsername db p.username = some u →
        ∀ r sdr rcv,
          DBEffect.createInvite r sdr rcv ∈ (HandleInviteUsers db conns client p).dbEff →
          rcv = u.id ∧ r = p.roomID ∧ sdr = client.userID) := by
  constructor
  · intro hu
    simp [HandleInviteUsers, hin, hu]
  · intro u hu r sdr rcv hmem
    unfold HandleInviteUsers at hmem
    rw [hin, hu] at hmem
    simp only [Bool.not_true, Bool.false_eq_true, if_false] at hmem
    repeat' split at hmem
    all_goals simp at hmem
    all_goals exact ⟨hmem.2.2, hmem.1, hmem.2.1⟩

/-- C4, witness: the amended no-such-username behaviour evaluated on the
empty database. -/
theorem claim4_amended_witness :
    HandleInviteUsers dbEmpty [] ⟨0, 10, [7]⟩ ⟨7, "bob", "1234"⟩
      = ⟨[errTo ⟨0, 10, [7]⟩ "User not found"], [], []⟩ :=
  (claim4_amended dbEmpty [] ⟨0, 10, [7]⟩ ⟨7, "bob", "1234"⟩ (by decide)).1 (by decide)

/-- C5: in accept-invite processing, when a pending invite exists, the status
update succeeds and the durable membership creation fails, the acceptor
receives exactly one `error` envelope ("Failed to join room") and neither
`room_joined` nor `user_joined` is emitted; and `room_joined` is emitted only
when both the status update and the membership creation succeed. -/
theorem claim5_accept_saga (db : DB) (client : WsClient) (s : String)
    (inv : InviteRequest)
    (hfind : findPendingInvite db (parseRoomID s) client.userID = some inv) :
    (db.saveInviteOk = true → db.createRoomUserOk = false →
       HandleAcceptInvite db client s
         = ⟨[errTo client "Failed to join room"],
            [.updateInviteStatus inv.id "accepted",
             .createRoomUser (parseRoomID s) client.userID], []⟩
       ∧ hasRoomJoined (HandleAcceptInvite db client s) = false
       ∧ hasUserJoined (HandleAcceptInvite db client s) = false)
    ∧ (hasRoomJoined (HandleAcceptInvite db client s) = true →
        db.saveInviteOk = true ∧ db.createRoomUserOk = true) := by
  constructor
  · intro hs1 hc1
    refine ⟨?_, ?_, ?_⟩ <;>
      simp [HandleAcceptInvite, HandleAcceptInviteAt, hfind, hs1, hc1,
        hasRoomJoined, hasUserJoined, errTo]
  · intro hrj
    cases hs1 : db.saveInviteOk with
    | false =>
      exfalso
      simp [HandleAcceptInvite, HandleAcceptInviteAt, hfind, hs1,
        hasRoomJoined, errTo] at hrj
    | true =>
      cases hc1 : db.createRoomUserOk with
      | false =>
        exfalso
        simp [HandleAcceptInvite, HandleAcceptInviteAt, hfind, hs1, hc1,
          hasRoomJoined, errTo] at hrj
      | true => exact ⟨rfl, rfl⟩

/-- C5, witness: the partial-failure path evaluated on a concrete database
holding a pending invite for room 7 and user 1 with a failing membership
creation. -/
theorem claim5_witness :
    HandleAcceptInvite dbC5 ⟨0, 1, []⟩ "7"
      = ⟨[errTo ⟨0, 1, []⟩ "Failed to join room"],
         [DBEffect.updateInviteStatus 3 "accepted",
          DBEffect.createRoomUser (parseRoomID "7") 1], []⟩
    ∧ hasRoomJoined (HandleAcceptInvite dbC5 ⟨0, 1, []⟩ "7") = false
    ∧ hasUserJoined (HandleAcceptInvite dbC5 ⟨0, 1, []⟩ "7") = false :=
  (claim5_accept_saga dbC5 ⟨0, 1, []⟩ "7" ⟨3, 7, 2, 1, "pending"⟩ (by decide)).1 rfl rfl

/-- C8, counterexample. The claim states that processing `join_room` mutates
no durable state. With a durable membership record for (user 1, room 2)
present, `join_room "2"` from user 1 performs the session join and emits
nothing, but `updateLastReadTime` finds the record and saves it with a fresh
`LastReadAt` — a durable write — so the no-durable-mutation part is false. -/
theorem claim8_counterexample :
    HandleIncomingMessage dbC8 [] ⟨0, 1, []⟩ ⟨"join_room", .str "2"⟩
      = ⟨[], [DBEffect.updateLastRead 1 2], [ClientAction.sessionJoin 2]⟩ := by
  decide

/-- C8, amended: `join_room` adds the parsed room to the connection's session
membership with a registry Join and produces no outbound envelope; in
addition it updates the durable last-read timestamp for (user, room) when a
durable membership record exists, and performs no durable write otherwise. -/
theorem claim8_amended (db : DB) (conns : List WsClient) (client : WsClient) (s : String) :
    HandleIncomingMessage db conns client ⟨"join_room", .str s⟩
      = ⟨[], updateLastReadTime db client.userID (parseRoomID s),
         [.sessionJoin (parseRoomID s)]⟩
    ∧ (findRoomUser db (parseRoomID s) client.userID = none →
        HandleIncomingMessage db conns client ⟨"join_room", .str s⟩
          = ⟨[], [], [.sessionJoin (parseRoomID s)]⟩) := by
  constructor
  · simp [HandleIncomingMessage]
  · intro hfr
    simp [HandleIncomingMessage, updateLastReadTime, hfr]

/-- C8, witness: the no-durable-record case evaluated on the empty database. -/
theorem claim8_amended_witness :
    HandleIncomingMessage dbEmpty [] ⟨0, 1, []⟩ ⟨"join_room", .str "2"⟩
      = ⟨[], [], [ClientAction.sessionJoin (parseRoomID "2")]⟩ :=
  (claim8_amended dbEmpty [] ⟨0, 1, []⟩ "2").2 (by decide)

/-- C9: for `join_room`/`accept_invite` (and the other string-payload types)
whose payload string is not a parseable decimal number, `parseRoomID`
returns 0 and the handler proceeds with room id 0 — `join_room` session-joins
room 0 without emitting any error envelope, and `accept_invite` runs the
acceptance logic against room id 0 — instead of rejecting the frame. -/
theorem claim9_invalid_roomid_parses_zero (s : String) (hs : validUint64 s = false)
    (db : DB) (conns : List WsClient) (client : WsClient) :
    parseRoomID s = 0
    ∧ (HandleIncomingMessage db conns client ⟨"join_room", .str s⟩).acts
        = [ClientAction.sessionJoin 0]
    ∧ (HandleIncomingMessage db conns client ⟨"join_room", .str s⟩).outs = []
    ∧ HandleIncomingMessage db conns client ⟨"accept_invite", .str s⟩
        = HandleAcceptInviteAt db client 0 := by
  have h0 : parseRoomID s = 0 := by simp [parseRoomID, hs]
  refine ⟨h0, ?_, ?_, ?_⟩
  · simp [HandleIncomingMessage, h0]
  · simp [HandleIncomingMessage]
  · simp [HandleIncomingMessage, HandleAcceptInvite, h0]

/-- C9, witness: the unparseable payload "abc" evaluated on the empty
database. -/
theorem claim9_witness :
    parseRoomID "abc" = 0
    ∧ (HandleIncomingMessage dbEmpty [] ⟨0, 1, []⟩ ⟨"join_room", .str "abc"⟩).acts
        = [ClientAction.sessionJoin 0]
    ∧ (HandleIncomingMessage dbEmpty [] ⟨0, 1, []⟩ ⟨"join_room", .str "abc"⟩).outs = []
    ∧ HandleIncomingMessage dbEmpty [] ⟨0, 1, []⟩ ⟨"accept_invite", .str "abc"⟩
        = HandleAcceptInviteAt dbEmpty ⟨0, 1, []⟩ 0 :=
  claim9_invalid_roomid_parses_zero "abc" (by decide) dbEmpty [] ⟨0, 1, []⟩

/-- C10: a direct per-user notification (`invite_received` to the receiver,
`invite_rejected` to the original sender) goes to at most one live
connection — the first matching client in the live-connection set — even when
the user has several connections; when the user has no live connection
nothing is sent and no error occurs. -/
theorem claim10_direct_notification (conns : List WsClient) (uid : Nat)
    (inv : InviteRequest) (roomName senderName : String) :
    (notifyUserOfInvite conns uid inv roomName senderName).length ≤ 1
    ∧ ((∀ c ∈ conns, c.userID ≠ uid) →
        notifyUserOfInvite conns uid inv roomName senderName = [])
    ∧ (∀ c, conns.find? (fun x => x.userID == uid) = some c →
        notifyUserOfInvite conns uid inv roomName senderName
          = [Out.direct c.cid (Frame.inviteReceived inv.id inv.roomID roomName senderName)])
    ∧ (notifyInviterOfRejection conns inv).length ≤ 1
    ∧ ((∀ c ∈ conns, c.userID ≠ inv.senderID) → notifyInviterOfRejection conns inv = [])
    ∧ (∀ c, conns.find? (fun x => x.userID == inv.senderID) = some c →
        notifyInviterOfRejection conns inv
          = [Out.direct c.cid (Frame.inviteRejected inv.id inv.roomID inv.receiverID)]) :=
  ⟨notifyUser_length conns uid inv roomName senderName,
   notifyUser_none conns uid inv roomName senderName,
   fun c h => notifyUser_first conns uid inv roomName senderName c h,
   notifyInviter_length conns inv,
   notifyInviter_none conns inv,
   fun c h => notifyInviter_first conns inv c h⟩

/-- C10, witness: with two live connections of user 42, only the first
(client 3) is notified, for both notification helpers. -/
theorem claim10_witness :
    notifyUserOfInvite [⟨3, 42, []⟩, ⟨4, 42, []⟩] 42 ⟨9, 7, 2, 42, "pending"⟩
        "general" "alice"
      = [Out.direct 3 (Frame.inviteReceived 9 7 "general" "alice")]
    ∧ notifyInviterOfRejection [⟨3, 42, []⟩, ⟨4, 42, []⟩] ⟨9, 7, 42, 5, "rejected"⟩
      = [Out.direct 3 (Frame.inviteRejected 9 7 5)] :=
  ⟨(claim10_direct_notification [⟨3, 42, []⟩, ⟨4, 42, []⟩] 42 ⟨9, 7, 2, 42, "pending"⟩
      "general" "alice").2.2.1 ⟨3, 42, []⟩ (by decide),
   (claim10_direct_notification [⟨3, 42, []⟩, ⟨4, 42, []⟩] 42 ⟨9, 7, 42, 5, "rejected"⟩
      "general" "alice").2.2.2.2.2 ⟨3, 42, []⟩ (by decide)⟩

end NetworkBackend
